import Mathlib

/-!
Verification of the temporal event-detection engine of the
misticos.bo backend (src/transitos.py and src/main_api.py).

The Python code is shallowly embedded:

* Float angle arithmetic is embedded over ℚ (the code performs only
  field operations, floor-based modulo, comparisons and absolute
  values, all exact on the sampled values we reason about).
* Python's float modulo x % m (for m > 0) is x - m * ⌊x / m⌋, embedded
  as pymod below.
* Sample timestamps: the scanning loops advance a datetime cursor by a
  fixed step and stamp events with its "%Y-%m-%d %H:%M" rendering.
  Within one scan that rendering is a strictly monotone injection from
  the sample index, so timestamps are embedded as the sample index ℕ.
* Python dictionaries keyed by the pair/aspect string are embedded
  per key: distinct keys never interact, so each (pair, aspect) key is
  one independent state machine over Option Ventana.
-/

namespace Misticos

/-! ## AngleMath (src/transitos.py lines 73-87, src/main_api.py lines 299-312) -/

/-- Python float modulo x % m for m > 0: x - m * floor (x / m). -/
def pymod (x m : ℚ) : ℚ := x - m * ⌊x / m⌋

/-- transitos.py _norm360: x % 360.0, then if x < 0: x += 360 (dead branch for modulus 360 > 0). -/
def _norm360 (x : ℚ) : ℚ :=
  let y := pymod x 360
  if y < 0 then y + 360 else y

/-- transitos.py _ang_diff: absolute difference of normalized angles, folded above 180. -/
def _ang_diff (a b : ℚ) : ℚ :=
  let diff := |_norm360 a - _norm360 b|
  if diff > 180 then 360 - diff else diff

/-- transitos.py distancia_aspecto: distance from the pair separation to the target angle. -/
def distancia_aspecto (lon1 lon2 ang_obj : ℚ) : ℚ :=
  |_ang_diff lon1 lon2 - ang_obj|

/-- main_api.py distancia_aspecto: case-split formula on the raw longitude difference. -/
def distancia_aspecto_api (diff_raw angulo_objetivo : ℚ) : ℚ :=
  let d := pymod diff_raw 360
  if angulo_objetivo = 0 then min d (360 - d)
  else if angulo_objetivo = 180 then |d - 180|
  else min |d - angulo_objetivo| |d - (360 - angulo_objetivo)|

theorem pymod_nonneg (x : ℚ) : 0 ≤ pymod x 360 := by
  have h1 : ((⌊x / 360⌋ : ℚ)) ≤ x / 360 := Int.floor_le _
  have hx : x = 360 * (x / 360) := by ring
  unfold pymod
  nlinarith [h1]

theorem pymod_lt (x : ℚ) : pymod x 360 < 360 := by
  have h2 : x / 360 < (⌊x / 360⌋ : ℚ) + 1 := Int.lt_floor_add_one _
  have hx : x = 360 * (x / 360) := by ring
  unfold pymod
  nlinarith [h2]

theorem _norm360_eq_pymod (x : ℚ) : _norm360 x = pymod x 360 := by
  unfold _norm360
  rw [if_neg (not_lt.mpr (pymod_nonneg x))]

/-- pymod x 360 differs from x by an integer multiple of 360. -/
theorem pymod_sub_self (x : ℚ) : ∃ k : ℤ, pymod x 360 - x = 360 * (k : ℚ) :=
  ⟨-⌊x / 360⌋, by push_cast; unfold pymod; ring⟩

theorem pymod_eq_self {x : ℚ} (h0 : 0 ≤ x) (h1 : x < 360) : pymod x 360 = x := by
  have hfl : ⌊x / 360⌋ = 0 := by
    rw [Int.floor_eq_zero_iff]
    constructor
    · positivity
    · rw [div_lt_one (by norm_num : (0:ℚ) < 360)]; simpa using h1
  unfold pymod
  rw [hfl]
  push_cast
  ring

/-- The folded separation equals min D (360 - D) where D is the modular difference. -/
theorem _ang_diff_eq_min (a b : ℚ) :
    _ang_diff a b = min (pymod (a - b) 360) (360 - pymod (a - b) 360) := by
  set D := pymod (a - b) 360 with hD
  have hD0 : 0 ≤ D := pymod_nonneg _
  have hD1 : D < 360 := pymod_lt _
  have hA0 : 0 ≤ pymod a 360 := pymod_nonneg a
  have hA1 : pymod a 360 < 360 := pymod_lt a
  have hB0 : 0 ≤ pymod b 360 := pymod_nonneg b
  have hB1 : pymod b 360 < 360 := pymod_lt b
  obtain ⟨ka, hka⟩ := pymod_sub_self a
  obtain ⟨kb, hkb⟩ := pymod_sub_self b
  obtain ⟨kd, hkd⟩ := pymod_sub_self (a - b)
  have hdiff : pymod a 360 - pymod b 360 - D = 360 * ((ka - kb - kd : ℤ) : ℚ) := by
    push_cast
    linarith [hka, hkb, hkd]
  have hkbound : (ka - kb - kd : ℤ) = 0 ∨ (ka - kb - kd : ℤ) = -1 := by
    set m : ℤ := ka - kb - kd with hm
    have hlow : (-720 : ℚ) < 360 * (m : ℚ) := by linarith
    have hhigh : 360 * (m : ℚ) < 360 := by linarith
    have hml : (-2 : ℚ) < (m : ℚ) := by linarith
    have hmh : (m : ℚ) < 1 := by linarith
    have hml2 : (-2 : ℤ) < m := by exact_mod_cast hml
    have hmh2 : m < 1 := by exact_mod_cast hmh
    omega
  unfold _ang_diff
  rw [_norm360_eq_pymod, _norm360_eq_pymod]
  rcases hkbound with hk | hk
  · have heq : pymod a 360 - pymod b 360 = D := by
      rw [hk] at hdiff
      push_cast at hdiff
      linarith
    rw [heq, abs_of_nonneg hD0]
    rcases le_or_lt D 180 with h | h
    · rw [if_neg (not_lt.mpr h), min_eq_left (by linarith)]
    · rw [if_pos h, min_eq_right (by linarith)]
  · have heq : pymod a 360 - pymod b 360 = D - 360 := by
      rw [hk] at hdiff
      push_cast at hdiff
      linarith
    have habs : |pymod a 360 - pymod b 360| = 360 - D := by
      rw [heq, abs_of_nonpos (by linarith)]
      ring
    rw [habs]
    rcases lt_trichotomy D 180 with h | h | h
    · rw [if_pos (by linarith), min_eq_left (by linarith)]
      ring
    · rw [if_neg (by simp only [not_lt]; linarith), min_eq_left (by linarith)]
      linarith
    · rw [if_neg (by simp only [not_lt]; linarith), min_eq_right (by linarith)]

/-- C9: _ang_diff is symmetric and its value lies in the closed interval [0, 180]. -/
theorem C9_ang_diff_simetrica_y_en_rango (a b : ℚ) :
    _ang_diff a b = _ang_diff b a ∧ 0 ≤ _ang_diff a b ∧ _ang_diff a b ≤ 180 := by
  refine ⟨?_, ?_, ?_⟩
  · unfold _ang_diff
    rw [abs_sub_comm]
  · rw [_ang_diff_eq_min]
    have h0 := pymod_nonneg (a - b)
    have h1 := pymod_lt (a - b)
    rcases min_cases (pymod (a - b) 360) (360 - pymod (a - b) 360) with ⟨h, _⟩ | ⟨h, _⟩ <;>
      linarith [h]
  · rw [_ang_diff_eq_min]
    rcases min_cases (pymod (a - b) 360) (360 - pymod (a - b) 360) with ⟨h, hle⟩ | ⟨h, hlt⟩
    · rw [h]; linarith
    · rw [h]; linarith [pymod_nonneg (a - b)]

/-- Folding helper for the intermediate aspects 60, 90, 120. -/
theorem abs_min_fold (D ang : ℚ) (hD0 : 0 ≤ D) (hD1 : D < 360)
    (h0 : 0 < ang) (h1 : ang < 180) :
    |min D (360 - D) - ang| = min |D - ang| |D - (360 - ang)| := by
  rcases le_or_lt D 180 with h | h
  · rw [min_eq_left (by linarith)]
    have habs : |D - (360 - ang)| = 360 - ang - D := by
      rw [abs_of_nonpos (by linarith)]
      ring
    rw [habs]
    have hle : |D - ang| ≤ 360 - ang - D := abs_le.mpr ⟨by linarith, by linarith⟩
    exact (min_eq_left hle).symm
  · rw [min_eq_right (by linarith)]
    have hcomm : |360 - D - ang| = |D - (360 - ang)| := by
      rw [← abs_neg]
      ring_nf
    rw [hcomm]
    have hea : |D - ang| = D - ang := abs_of_nonneg (by linarith)
    have hle : |D - (360 - ang)| ≤ |D - ang| := by
      rw [hea]
      exact abs_le.mpr ⟨by linarith, by linarith⟩
    exact (min_eq_right hle).symm

/-- C10: the transitos.py aspect distance agrees with the main_api.py case-split
formula applied to the raw modular longitude difference, at all five target angles. -/
theorem C10_distancia_aspecto_refinamiento (lon1 lon2 ang : ℚ)
    (h : ang = 0 ∨ ang = 60 ∨ ang = 90 ∨ ang = 120 ∨ ang = 180) :
    distancia_aspecto lon1 lon2 ang = distancia_aspecto_api (pymod (lon1 - lon2) 360) ang := by
  have hD0 := pymod_nonneg (lon1 - lon2)
  have hD1 := pymod_lt (lon1 - lon2)
  unfold distancia_aspecto distancia_aspecto_api
  rw [pymod_eq_self hD0 hD1, _ang_diff_eq_min]
  set D := pymod (lon1 - lon2) 360 with hD
  rcases h with h | h | h | h | h <;> subst h
  · rw [if_pos rfl, sub_zero, abs_of_nonneg (le_min hD0 (by linarith))]
  · rw [if_neg (by norm_num), if_neg (by norm_num)]
    exact abs_min_fold D 60 hD0 hD1 (by norm_num) (by norm_num)
  · rw [if_neg (by norm_num), if_neg (by norm_num)]
    exact abs_min_fold D 90 hD0 hD1 (by norm_num) (by norm_num)
  · rw [if_neg (by norm_num), if_neg (by norm_num)]
    exact abs_min_fold D 120 hD0 hD1 (by norm_num) (by norm_num)
  · rw [if_neg (by norm_num), if_pos rfl]
    rcases le_or_lt D 180 with h | h
    · rw [min_eq_left (by linarith)]
    · rw [min_eq_right (by linarith)]
      have : (360 : ℚ) - D - 180 = -(D - 180) := by ring
      rw [this, abs_neg]

/-- C10 witness: concrete agreement for the sextile at longitudes 30 and 0. -/
theorem C10_distancia_aspecto_refinamiento_testigo :
    distancia_aspecto 30 0 60 = distancia_aspecto_api (pymod (30 - 0) 360) 60 :=
  C10_distancia_aspecto_refinamiento 30 0 60 (Or.inr (Or.inl rfl))

/-! ## OrbWindowEngine: per-key window state machine
(src/transitos.py lines 179-235 in calcular_transitos_cielo, the identical
aspect block at lines 375-434 of calcular_transitos_natal, and the variant
at src/main_api.py lines 556-651 in calcular_transitos_planeta).

Distinct keys of the ventanas dictionary never interact, so the embedding is
the state machine of one key. A dictionary entry is Option Ventana: none is
an absent key; the entry itself keeps an activo flag, exactly as the source,
which never deletes an entry. -/

/-- One entry of the ventanas dictionary of transitos.py. -/
structure Ventana where
  activo : Bool
  fecha_inicio : ℕ
  fecha_exacto : ℕ
  dist_min : ℚ
  deriving DecidableEq

/-- An emitted aspect event (the three timestamps the claims reason about). -/
structure Evento where
  fecha_inicio : ℕ
  fecha_exacto : ℕ
  fecha_fin : ℕ
  deriving DecidableEq

/-- One sample of the transitos.py window state machine for one key:
lines 184-213 (creation, best-distance update, orb-exit emission). -/
def pasoCielo (orbe : ℚ) (t : ℕ) (dist : ℚ) (s : Option Ventana) :
    Option Ventana × Option Evento :=
  match s with
  | none =>
      if dist ≤ orbe then (some ⟨true, t, t, dist⟩, none) else (none, none)
  | some v =>
      if v.activo then
        let v1 := if dist < v.dist_min then { v with dist_min := dist, fecha_exacto := t } else v
        if orbe < dist then
          (some { v1 with activo := false }, some ⟨v1.fecha_inicio, v1.fecha_exacto, t⟩)
        else (some v1, none)
      else (some v, none)

/-- The sampling loop of transitos.py for one key, from sample index t. -/
def escanCieloDesde (orbe : ℚ) : ℕ → Option Ventana → List ℚ → Option Ventana × List Evento
  | _, s, [] => (s, [])
  | t, s, d :: ds =>
      let r := pasoCielo orbe t d s
      let rest := escanCieloDesde orbe (t + 1) r.1 ds
      (rest.1, r.2.toList ++ rest.2)

/-- Whether a dictionary entry is a live (Active) window. -/
def activoOpt : Option Ventana → Bool
  | some v => v.activo
  | none => false

/-- The scan-end flush: transitos.py lines 216-235 (cerrar ventanas activas). -/
def cerrarVentanas (tFin : ℕ) (s : Option Ventana) : List Evento :=
  match s with
  | some v => if v.activo then [⟨v.fecha_inicio, v.fecha_exacto, tFin⟩] else []
  | none => []

/-- Full scan for one key over the per-sample aspect distances; the flush
timestamp is the final sample index, as last_fin at line 217 equals the last
loop timestamp (final_day + 23h with a 1-hour step from inicio_day). -/
def escanearCielo (orbe : ℚ) (dists : List ℚ) : List Evento :=
  let r := escanCieloDesde orbe 0 none dists
  r.2 ++ cerrarVentanas (dists.length - 1) r.1

/-- Number of samples at which a window is created for the key (line 186-192:
only an absent key within orb creates a window). -/
def aperturas (orbe : ℚ) : ℕ → Option Ventana → List ℚ → ℕ
  | _, _, [] => 0
  | t, s, d :: ds =>
      (if s = none ∧ d ≤ orbe then 1 else 0) + aperturas orbe (t + 1) (pasoCielo orbe t d s).1 ds

/-- One entry of the estados_aspectos dictionary of main_api.py
(calcular_transitos_planeta). The fecha_exacto is fixed at window opening
(lines 577-588, the bisection refiner result, abstracted as the exacto
argument of pasoApi). -/
structure EstadoAspecto where
  activo : Bool
  fecha_inicio : ℕ
  fecha_exacto : ℕ
  deriving DecidableEq

/-- Whether a main_api.py dictionary entry is a live window. -/
def activoApi : Option EstadoAspecto → Bool
  | some v => v.activo
  | none => false

/-- One sample of the main_api.py aspect window machine for one key:
lines 556-651 (re-creation allowed on an inactive entry, emission on exit). -/
def pasoApi (orbe : ℚ) (t exacto : ℕ) (dist : ℚ) (s : Option EstadoAspecto) :
    Option EstadoAspecto × Option Evento :=
  let dentro_orbe := dist ≤ orbe
  if (s = none ∨ activoApi s = false) ∧ dentro_orbe then
    (some ⟨true, t, exacto⟩, none)
  else
    match s with
    | some v =>
        if v.activo ∧ ¬ dentro_orbe then
          (some { v with activo := false }, some ⟨v.fecha_inicio, v.fecha_exacto, t⟩)
        else (some v, none)
    | none => (none, none)

/-- Lifecycle invariant of a live dictionary entry before sample t is processed. -/
def VentanaOk (t : ℕ) (s : Option Ventana) : Prop :=
  ∀ v, s = some v → v.activo = true → v.fecha_inicio ≤ v.fecha_exacto ∧ v.fecha_exacto < t

theorem pasoCielo_none_dentro {orbe d : ℚ} {t : ℕ} (h : d ≤ orbe) :
    pasoCielo orbe t d none = (some ⟨true, t, t, d⟩, none) := by
  simp [pasoCielo, h]

theorem pasoCielo_none_fuera {orbe d : ℚ} {t : ℕ} (h : ¬ d ≤ orbe) :
    pasoCielo orbe t d none = (none, none) := by
  simp [pasoCielo, h]

theorem pasoCielo_inactivo {orbe d : ℚ} {t : ℕ} {v : Ventana} (h : v.activo = false) :
    pasoCielo orbe t d (some v) = (some v, none) := by
  simp [pasoCielo, h]

theorem pasoCielo_activo {orbe d : ℚ} {t : ℕ} {v : Ventana} (h : v.activo = true) :
    pasoCielo orbe t d (some v) =
      (let v1 := if d < v.dist_min then { v with dist_min := d, fecha_exacto := t } else v
       if orbe < d then
         (some { v1 with activo := false }, some ⟨v1.fecha_inicio, v1.fecha_exacto, t⟩)
       else (some v1, none)) := by
  simp [pasoCielo, h]

theorem pasoCielo_inv {orbe d : ℚ} {t : ℕ} {s : Option Ventana}
    (h : VentanaOk t s) : VentanaOk (t + 1) (pasoCielo orbe t d s).1 := by
  cases s with
  | none =>
      intro v hv hact
      by_cases hd : d ≤ orbe
      · rw [pasoCielo_none_dentro hd] at hv
        cases Option.some.inj hv
        exact ⟨le_refl t, Nat.lt_succ_self t⟩
      · rw [pasoCielo_none_fuera hd] at hv
        cases hv
  | some w =>
      intro v hv hact
      cases hw : w.activo with
      | false =>
          rw [pasoCielo_inactivo hw] at hv
          cases Option.some.inj hv
          rw [hw] at hact
          cases hact
      | true =>
          obtain ⟨h1, h2⟩ := h w rfl hw
          rw [pasoCielo_activo hw] at hv
          simp only at hv
          by_cases hup : d < w.dist_min <;> by_cases hex : orbe < d <;>
              simp only [hup, hex, if_true, if_false, if_pos, if_neg, not_false_iff] at hv <;>
            cases Option.some.inj hv <;>
              refine ⟨?_, ?_⟩ <;> (try simp only []) <;> omega

theorem pasoCielo_evento {orbe d : ℚ} {t : ℕ} {s : Option Ventana} {ev : Evento}
    (h : VentanaOk t s) (hev : (pasoCielo orbe t d s).2 = some ev) :
    ev.fecha_inicio ≤ ev.fecha_exacto ∧ ev.fecha_exacto ≤ ev.fecha_fin := by
  cases s with
  | none =>
      by_cases hd : d ≤ orbe
      · rw [pasoCielo_none_dentro hd] at hev; cases hev
      · rw [pasoCielo_none_fuera hd] at hev; cases hev
  | some w =>
      cases hw : w.activo with
      | false => rw [pasoCielo_inactivo hw] at hev; cases hev
      | true =>
          obtain ⟨h1, h2⟩ := h w rfl hw
          rw [pasoCielo_activo hw] at hev
          simp only at hev
          by_cases hup : d < w.dist_min <;> by_cases hex : orbe < d <;>
              simp only [hup, hex, if_true, if_false, if_pos, if_neg, not_false_iff] at hev <;>
            first
              | (cases Option.some.inj hev <;>
                  refine ⟨?_, ?_⟩ <;> (try simp only []) <;> omega)
              | cases hev

theorem escanCielo_inv (orbe : ℚ) : ∀ (ds : List ℚ) (t : ℕ) (s : Option Ventana),
    VentanaOk t s →
    (∀ ev ∈ (escanCieloDesde orbe t s ds).2,
        ev.fecha_inicio ≤ ev.fecha_exacto ∧ ev.fecha_exacto ≤ ev.fecha_fin) ∧
    VentanaOk (t + ds.length) (escanCieloDesde orbe t s ds).1 := by
  intro ds
  induction ds with
  | nil =>
      intro t s h
      exact ⟨by simp [escanCieloDesde], by simpa [escanCieloDesde] using h⟩
  | cons d ds ih =>
      intro t s h
      obtain ⟨hev, hinv⟩ := ih (t + 1) (pasoCielo orbe t d s).1 (pasoCielo_inv h)
      constructor
      · intro ev hmem
        simp only [escanCieloDesde, List.mem_append, Option.mem_toList, Option.mem_def] at hmem
        rcases hmem with hmem | hmem
        · exact pasoCielo_evento h hmem
        · exact hev ev hmem
      · simp only [escanCieloDesde, List.length_cons]
        have harith : t + 1 + ds.length = t + (ds.length + 1) := by omega
        rw [← harith]
        exact hinv

/-- C1: every aspect event emitted by the orb-window scan, on orb exit or at
the scan-end flush, satisfies fecha_inicio ≤ fecha_exacto ≤ fecha_fin. -/
theorem C1_evento_timestamps_ordenados (orbe : ℚ) (dists : List ℚ) :
    ∀ ev ∈ escanearCielo orbe dists,
      ev.fecha_inicio ≤ ev.fecha_exacto ∧ ev.fecha_exacto ≤ ev.fecha_fin := by
  intro ev hmem
  have h0 : VentanaOk 0 (none : Option Ventana) := by intro v hv; cases hv
  obtain ⟨hev, hinv⟩ := escanCielo_inv orbe dists 0 none h0
  simp only [escanearCielo, List.mem_append] at hmem
  rcases hmem with hmem | hmem
  · exact hev ev hmem
  · rcases hfin : (escanCieloDesde orbe 0 none dists).1 with _ | v
    · rw [hfin] at hmem
      simp [cerrarVentanas] at hmem
    · rw [hfin] at hmem
      simp only [cerrarVentanas] at hmem
      split_ifs at hmem with hact
      · simp only [List.mem_singleton] at hmem
        subst hmem
        obtain ⟨h1, h2⟩ := hinv v hfin hact
        refine ⟨h1, ?_⟩
        simp only
        omega
      · simp at hmem

/-- C1 witness: the single-sample scan inside orb flushes an ordered event. -/
theorem C1_evento_timestamps_ordenados_testigo :
    (⟨0, 0, 0⟩ : Evento).fecha_inicio ≤ (⟨0, 0, 0⟩ : Evento).fecha_exacto ∧
      (⟨0, 0, 0⟩ : Evento).fecha_exacto ≤ (⟨0, 0, 0⟩ : Evento).fecha_fin :=
  C1_evento_timestamps_ordenados 1 [0] ⟨0, 0, 0⟩ (by
    norm_num [escanearCielo, escanCieloDesde, pasoCielo, cerrarVentanas])

theorem pasoCielo_conteo (orbe d : ℚ) (t : ℕ) (s : Option Ventana) :
    (pasoCielo orbe t d s).2.toList.length
      + (if activoOpt (pasoCielo orbe t d s).1 then 1 else 0)
      = (if s = none ∧ d ≤ orbe then 1 else 0) + (if activoOpt s then 1 else 0) := by
  cases s with
  | none =>
      by_cases hd : d ≤ orbe
      · rw [pasoCielo_none_dentro hd]
        simp [activoOpt, hd]
      · rw [pasoCielo_none_fuera hd]
        simp [activoOpt, hd]
  | some v =>
      cases hv : v.activo with
      | false =>
          rw [pasoCielo_inactivo hv]
          simp [activoOpt, hv]
      | true =>
          rw [pasoCielo_activo hv]
          by_cases hup : d < v.dist_min <;> by_cases hex : orbe < d <;>
            simp [activoOpt, hv, hup, hex]

theorem conteo_escanCielo (orbe : ℚ) : ∀ (ds : List ℚ) (t : ℕ) (s : Option Ventana),
    (escanCieloDesde orbe t s ds).2.length
      + (if activoOpt (escanCieloDesde orbe t s ds).1 then 1 else 0)
      = aperturas orbe t s ds + (if activoOpt s then 1 else 0) := by
  intro ds
  induction ds with
  | nil => intro t s; simp [escanCieloDesde, aperturas]
  | cons d ds ih =>
      intro t s
      have hstep := pasoCielo_conteo orbe d t s
      have hih := ih (t + 1) (pasoCielo orbe t d s).1
      simp only [escanCieloDesde, aperturas, List.length_append] at *
      linarith

theorem cerrarVentanas_longitud (tFin : ℕ) (s : Option Ventana) :
    (cerrarVentanas tFin s).length = if activoOpt s then 1 else 0 := by
  cases s with
  | none => simp [cerrarVentanas, activoOpt]
  | some v => cases hv : v.activo <;> simp [cerrarVentanas, activoOpt, hv]

/-- C2: every window opened during the scan yields exactly one emitted event
(the event count equals the opening count), and a window still live at the end
of the sampling loop is force-closed into a final event whose fecha_fin is the
final sample timestamp. -/
theorem C2_una_emision_por_ventana (orbe : ℚ) (dists : List ℚ) :
    (escanearCielo orbe dists).length = aperturas orbe 0 none dists ∧
    (activoOpt (escanCieloDesde orbe 0 none dists).1 = true →
      ∃ evs v, (escanCieloDesde orbe 0 none dists).1 = some v ∧
        escanearCielo orbe dists
          = evs ++ [⟨v.fecha_inicio, v.fecha_exacto, dists.length - 1⟩]) := by
  constructor
  · have hc := conteo_escanCielo orbe dists 0 none
    have hl := cerrarVentanas_longitud (dists.length - 1) (escanCieloDesde orbe 0 none dists).1
    simp only [escanearCielo, List.length_append, activoOpt, if_neg] at *
    simp only [Bool.false_eq_true, if_false, Nat.add_zero] at hc
    linarith
  · intro hact
    rcases hfin : (escanCieloDesde orbe 0 none dists).1 with _ | v
    · rw [hfin] at hact
      simp [activoOpt] at hact
    · refine ⟨(escanCieloDesde orbe 0 none dists).2, v, rfl, ?_⟩
      rw [hfin] at hact
      simp only [activoOpt] at hact
      simp only [escanearCielo, hfin, cerrarVentanas, hact, if_true]

/-- C2 witness: a one-sample scan whose window opens and survives to the end. -/
theorem C2_una_emision_por_ventana_testigo :
    ∃ evs v, (escanCieloDesde 1 0 none [0]).1 = some v ∧
      escanearCielo 1 [0] = evs ++ [⟨v.fecha_inicio, v.fecha_exacto, List.length [(0 : ℚ)] - 1⟩] :=
  (C2_una_emision_por_ventana 1 [0]).2 (by
    norm_num [escanCieloDesde, pasoCielo, activoOpt])

/-- C3 counterexample: in transitos.py, after the window of a key has emitted its
event, the dictionary keeps the entry with activo = False; at a later sample
within orb (distance 0 ≤ orb 1) no live window exists and yet no window is
created: the step leaves the dead entry unchanged and emits nothing. -/
theorem C3_reapertura_contraejemplo :
    (escanCieloDesde 1 0 none [0, 2]).1 = some ⟨false, 0, 0, 0⟩ ∧
    activoOpt (some ⟨false, 0, 0, 0⟩) = false ∧
    ((0 : ℚ) ≤ 1) ∧
    pasoCielo 1 2 0 (some ⟨false, 0, 0, 0⟩) = (some ⟨false, 0, 0, 0⟩, none) := by
  refine ⟨?_, rfl, by norm_num, ?_⟩
  · norm_num [escanCieloDesde, pasoCielo]
  · norm_num [pasoCielo]

/-- C3 amended: a window is created at an in-orb sample only when the key has no
dictionary entry at all (in transitos.py a dead entry blocks re-creation for the
rest of the scan), while the main_api.py variant re-creates the window whenever
no live window exists, dead entry or no entry. -/
theorem C3_apertura_ventana (orbe d : ℚ) (t exacto : ℕ) (v : Ventana)
    (s : Option EstadoAspecto) :
    (d ≤ orbe → pasoCielo orbe t d none = (some ⟨true, t, t, d⟩, none)) ∧
    (v.activo = false → pasoCielo orbe t d (some v) = (some v, none)) ∧
    (activoApi s = false → d ≤ orbe → pasoApi orbe t exacto d s = (some ⟨true, t, exacto⟩, none)) := by
  refine ⟨fun hd => pasoCielo_none_dentro hd, fun hv => pasoCielo_inactivo hv, fun hs hd => ?_⟩
  cases s with
  | none => simp [pasoApi, hd]
  | some w =>
      simp only [activoApi] at hs
      simp [pasoApi, hd, hs, activoApi]

/-- C3 amended witness: creation on an absent key, a blocked dead transitos.py
entry, and a main_api.py re-creation over a dead entry, at concrete inputs. -/
theorem C3_apertura_ventana_testigo :
    pasoCielo 1 5 0 none = (some ⟨true, 5, 5, 0⟩, none) ∧
    pasoCielo 1 5 0 (some ⟨false, 1, 2, 0⟩) = (some ⟨false, 1, 2, 0⟩, none) ∧
    pasoApi 1 5 3 0 (some ⟨false, 1, 2⟩) = (some ⟨true, 5, 3⟩, none) :=
  ⟨(C3_apertura_ventana 1 0 5 3 ⟨false, 1, 2, 0⟩ (some ⟨false, 1, 2⟩)).1 (by norm_num),
   (C3_apertura_ventana 1 0 5 3 ⟨false, 1, 2, 0⟩ (some ⟨false, 1, 2⟩)).2.1 rfl,
   (C3_apertura_ventana 1 0 5 3 ⟨false, 1, 2, 0⟩ (some ⟨false, 1, 2⟩)).2.2 rfl (by norm_num)⟩

/-- The C4 scenario distances: conjunction (target 0) distances of the pair at
the three samples, orb 1.0, separations orb+0.5, orb-0.2, orb+0.3 degrees. -/
def distanciasC4 : List ℚ :=
  [distancia_aspecto (3/2) 0 0, distancia_aspecto (4/5) 0 0, distancia_aspecto (13/10) 0 0]

theorem distanciasC4_eval : distanciasC4 = [3/2, 4/5, 13/10] := by
  norm_num [distanciasC4, distancia_aspecto, _ang_diff, _norm360, pymod, abs_of_nonneg]

/-- C4 counterexample: the separation sequence orb+0.5, orb-0.2, orb+0.3 with
orb = 1 yields exactly one event, but its window opens at the second sample
(timestamp 1), not at the first sample (timestamp 0) as the claim states: the
first sample is outside orb, so no window exists there. -/
theorem C4_escenario_contraejemplo :
    escanearCielo 1 distanciasC4 = [⟨1, 1, 2⟩] ∧
    (⟨1, 1, 2⟩ : Evento).fecha_inicio ≠ 0 := by
  refine ⟨?_, by simp⟩
  rw [distanciasC4_eval]
  norm_num [escanearCielo, escanCieloDesde, pasoCielo, cerrarVentanas]

/-- C4 amended: the scenario produces exactly one event, whose window spans the
second and third samples: fecha_inicio is the second sample's timestamp (the
first in-orb sample), fecha_exacto that same sample, and fecha_fin the third
sample's timestamp. -/
theorem C4_escenario_una_ventana :
    escanearCielo 1 distanciasC4 = [⟨1, 1, 2⟩] := by
  rw [distanciasC4_eval]
  norm_num [escanearCielo, escanCieloDesde, pasoCielo, cerrarVentanas]

/-- C5: while a window is live, dist_min and fecha_exacto move only on a strictly
smaller distance; a distance equal to (or above) the current minimum leaves both
unchanged, and fecha_inicio is never touched. -/
theorem C5_actualizacion_estricta (orbe d : ℚ) (t : ℕ) (v : Ventana)
    (hv : v.activo = true) :
    ∃ v1 e, pasoCielo orbe t d (some v) = (some v1, e) ∧
      v1.fecha_inicio = v.fecha_inicio ∧
      (d < v.dist_min → v1.dist_min = d ∧ v1.fecha_exacto = t) ∧
      (¬ d < v.dist_min → v1.dist_min = v.dist_min ∧ v1.fecha_exacto = v.fecha_exacto) := by
  rw [pasoCielo_activo hv]
  by_cases hup : d < v.dist_min <;> by_cases hex : orbe < d
  · exact ⟨⟨false, v.fecha_inicio, t, d⟩, some ⟨v.fecha_inicio, t, t⟩,
      by simp [hup, hex], rfl, fun h => ⟨rfl, rfl⟩, fun h => absurd hup h⟩
  · exact ⟨⟨v.activo, v.fecha_inicio, t, d⟩, none,
      by simp [hup, hex], rfl, fun h => ⟨rfl, rfl⟩, fun h => absurd hup h⟩
  · exact ⟨⟨false, v.fecha_inicio, v.fecha_exacto, v.dist_min⟩,
      some ⟨v.fecha_inicio, v.fecha_exacto, t⟩,
      by simp [hup, hex], rfl, fun h => absurd h hup, fun h => ⟨rfl, rfl⟩⟩
  · exact ⟨v, none, by simp [hup, hex], rfl, fun h => absurd h hup, fun h => ⟨rfl, rfl⟩⟩

/-- C5 witness: a live window fed a distance equal to its current minimum keeps
dist_min and fecha_exacto unchanged. -/
theorem C5_actualizacion_estricta_testigo :
    ∃ v1 e, pasoCielo 1 7 (1/2) (some ⟨true, 0, 0, 1/2⟩) = (some v1, e) ∧
      v1.fecha_inicio = 0 ∧
      ((1/2 : ℚ) < 1/2 → v1.dist_min = 1/2 ∧ v1.fecha_exacto = 7) ∧
      (¬ (1/2 : ℚ) < 1/2 → v1.dist_min = 1/2 ∧ v1.fecha_exacto = 0) :=
  C5_actualizacion_estricta 1 (1/2) 7 ⟨true, 0, 0, 1/2⟩ rfl

/-! ## StateTracker: per-body discrete state of calcular_transitos_natal
(src/transitos.py lines 296-373): sign index, house, retrograde flag.

A sample of a body is (timestamp, optional longitude, optional speed): the
longitude is None when the ephemeris call fails at that instant (_calc_long,
line 89-93), the speed is None when the speed call raises (lines 352-355). -/

/-- transitos.py SIGNOS_NOMBRES. -/
def SIGNOS_NOMBRES : List String :=
  ["ARIES", "TAURO", "GÉMINIS", "CÁNCER", "LEO", "VIRGO",
   "LIBRA", "ESCORPIO", "SAGITARIO", "CAPRICORNIO", "ACUARIO", "PISCIS"]

/-- Python int(lon // 30) % 12 (line 311): floor division then nonnegative mod. -/
def signoIdx (lon : ℚ) : ℤ := ⌊lon / 30⌋ % 12

/-- Body of the cusp interval test of obtener_casa_desde_cuspides (lines 101-113)
for house index i. -/
def casaPrueba (lon : ℚ) (c : List ℚ) (i : ℕ) : Bool :=
  let a := c.getD i 0
  let b := c.getD ((i + 1) % 12) 0
  let long_n := if b < a ∧ lon < a then lon + 360 else lon
  let b_n := if b < a then b + 360 else b
  decide (a ≤ long_n ∧ long_n < b_n)

/-- transitos.py obtener_casa_desde_cuspides: first matching interval, else 12. -/
def obtener_casa_desde_cuspides (lon : ℚ) (c : List ℚ) : ℕ :=
  match (List.range 12).find? (casaPrueba lon c) with
  | some i => i + 1
  | none => 12

/-- transitos.py obtener_casa_desde_cuspides_o_wholesign (lines 114-132). -/
def obtener_casa_desde_cuspides_o_wholesign (lon : ℚ) (c : List ℚ) (sistema : String) : ℕ :=
  if sistema = "W" then
    let signo_punto := ⌊lon / 30⌋ % 12
    let signo_asc := ⌊c.getD 0 0 / 30⌋ % 12
    ((signo_punto - signo_asc) % 12 + 1).toNat
  else obtener_casa_desde_cuspides lon c

/-- One entry of estado_prev (line 297). -/
structure EstadoPrev where
  signo_idx : Option ℤ
  casa : Option ℕ
  retro : Option Bool
  deriving DecidableEq

/-- The discrete-state events of calcular_transitos_natal (timestamps are sample
indices, signs and houses are the indices carried by the Python event dict). -/
inductive EventoNatal where
  | cambio_signo (anterior nuevo : ℤ) (fecha : ℕ)
  | cambio_casa (anterior nueva : ℕ) (fecha : ℕ)
  | retro_inicio (fecha : ℕ)
  | retro_fin (fecha : ℕ)
  deriving DecidableEq

/-- The sign tracker (lines 311-328) on the signo_idx component: seed silently
when unset, emit a cambio_signo when the index moves. -/
def pasoSigno (t : ℕ) (idx : ℤ) : Option ℤ → Option ℤ × List EventoNatal
  | none => (some idx, [])
  | some prev =>
      if prev ≠ idx then (some idx, [.cambio_signo prev idx t]) else (some prev, [])

/-- The house tracker (lines 330-350) on the casa component: runs only with a
full 12-cusp list, seeds silently, emits a cambio_casa when the house moves. -/
def pasoCasa (sistema : String) (t : ℕ) (lon : ℚ) :
    Option (List ℚ) → Option ℕ → Option ℕ × List EventoNatal
  | none, prev => (prev, [])
  | some c, prev =>
      if c.length = 12 then
        let casa_now := obtener_casa_desde_cuspides_o_wholesign lon c sistema
        match prev with
        | none => (some casa_now, [])
        | some pc =>
            if pc ≠ casa_now then (some casa_now, [.cambio_casa pc casa_now t])
            else (some pc, [])
      else (prev, [])

/-- The retrograde tracker (lines 352-373) on the retro component: a failed
speed leaves it untouched, a first speed seeds silently, a sign flip emits. -/
def pasoRetro (t : ℕ) : Option ℚ → Option Bool → Option Bool × List EventoNatal
  | none, prev => (prev, [])
  | some vel, none => (some (decide (vel < 0)), [])
  | some vel, some prev =>
      let is_retro := decide (vel < 0)
      if prev ≠ is_retro then
        (some is_retro, [if is_retro then .retro_inicio t else .retro_fin t])
      else (some prev, [])

/-- One body-sample of the natal scan loop (lines 305-373): on a failed
longitude the body is skipped wholly (continue, lines 308-309); otherwise the
sign, house and retrograde trackers run in order on their state components. -/
def pasoNatal (cusp : Option (List ℚ)) (sistema : String) (t : ℕ)
    (lon? vel? : Option ℚ) (e : EstadoPrev) : EstadoPrev × List EventoNatal :=
  match lon? with
  | none => (e, [])
  | some lon =>
      let r1 := pasoSigno t (signoIdx lon) e.signo_idx
      let r2 := pasoCasa sistema t lon cusp e.casa
      let r3 := pasoRetro t vel? e.retro
      (⟨r1.1, r2.1, r3.1⟩, r1.2 ++ r2.2 ++ r3.2)

/-- The natal scan loop over one body's samples (timestamp, longitude, speed). -/
def escanearNatal (cusp : Option (List ℚ)) (sistema : String) :
    EstadoPrev → List (ℕ × Option ℚ × Option ℚ) → EstadoPrev × List EventoNatal
  | e, [] => (e, [])
  | e, (t, lon?, vel?) :: rest =>
      let r := pasoNatal cusp sistema t lon? vel? e
      let rr := escanearNatal cusp sistema r.1 rest
      (rr.1, r.2 ++ rr.2)

/-- C6: a failed ephemeris sample (longitude None) is skipped for that body
only: the step emits no event and leaves the whole discrete state unchanged,
and a scan over samples with failures equals the scan over the successful
samples alone, so the next success compares against the last known state. -/
theorem C6_fallo_efemeride_no_fatal (cusp : Option (List ℚ)) (sistema : String) :
    (∀ (t : ℕ) (vel? : Option ℚ) (e : EstadoPrev),
        pasoNatal cusp sistema t none vel? e = (e, [])) ∧
    ∀ (e : EstadoPrev) (samples : List (ℕ × Option ℚ × Option ℚ)),
      escanearNatal cusp sistema e samples
        = escanearNatal cusp sistema e (samples.filter (fun s => s.2.1.isSome)) := by
  constructor
  · intro t vel? e
    rfl
  · intro e samples
    induction samples generalizing e with
    | nil => rfl
    | cons s rest ih =>
        obtain ⟨t, lon?, vel?⟩ := s
        cases lon? with
        | none =>
            calc escanearNatal cusp sistema e ((t, none, vel?) :: rest)
                = escanearNatal cusp sistema e rest := by
                  simp [escanearNatal, pasoNatal]
              _ = escanearNatal cusp sistema e
                    (rest.filter (fun s => s.2.1.isSome)) := ih e
              _ = escanearNatal cusp sistema e
                    (((t, none, vel?) :: rest).filter (fun s => s.2.1.isSome)) := by
                  simp [List.filter_cons]
        | some lon =>
            have hfil : ((t, some lon, vel?) :: rest).filter (fun s => s.2.1.isSome)
                = (t, some lon, vel?) :: rest.filter (fun s => s.2.1.isSome) := by
              simp [List.filter_cons]
            rw [hfil]
            simp only [escanearNatal]
            rw [ih (pasoNatal cusp sistema t (some lon) vel? e).1]

/-- C8: the longitude sequence 29.5, 30.5 over two samples seeds the state
silently at the first sample and emits exactly one sign-change event at the
second, from sign index 0 (ARIES) to sign index 1 (TAURO). -/
theorem C8_ingreso_de_signo :
    escanearNatal none "P" ⟨none, none, none⟩
        [(0, some (59/2), none), (1, some (61/2), none)]
      = (⟨some 1, none, none⟩, [.cambio_signo 0 1 1]) ∧
    SIGNOS_NOMBRES.getD 0 "" = "ARIES" ∧ SIGNOS_NOMBRES.getD 1 "" = "TAURO" := by
  refine ⟨?_, rfl, rfl⟩
  norm_num [escanearNatal, pasoNatal, pasoSigno, pasoCasa, pasoRetro, signoIdx]

/-! ## EclipsePhaseFinder dedup: calcular_fases_lunares, src/transitos.py
lines 679-695. The raw detection loop (swisseph sampling) produces a list of
phase records; the filter keyed on subtipo and the YYYY-MM prefix of the date
keeps the first record per key (Python dict insertion order) and then sorts by
date. The filter is embedded over an arbitrary raw list. -/

/-- A raw lunar-phase record: subtype name and "%Y-%m-%d %H:%M:%S" date. -/
structure Fase where
  subtipo : String
  fecha : String
  deriving DecidableEq

/-- The dedup key of line 683: subtipo and the month prefix fecha[:7]. -/
def claveFase (f : Fase) : String := f.subtipo ++ "_" ++ f.fecha.take 7

/-- The insertion-ordered dict fill of lines 680-685: keep the first record of
each key, tracking the keys already seen. -/
def dedupFases : List Fase → List String → List Fase
  | [], _ => []
  | f :: fs, vistas =>
      if claveFase f ∈ vistas then dedupFases fs vistas
      else f :: dedupFases fs (claveFase f :: vistas)

/-- Lines 687-688: dict values in first-seen order, then sorted by fecha. -/
def filtrarFases (fases : List Fase) : List Fase :=
  (dedupFases fases []).mergeSort (fun a b => decide (a.fecha ≤ b.fecha))

theorem mem_dedupFases : ∀ {fs : List Fase} {vistas : List String} {f : Fase},
    f ∈ dedupFases fs vistas → f ∈ fs ∧ claveFase f ∉ vistas := by
  intro fs
  induction fs with
  | nil => intro vistas f h; cases h
  | cons f0 fs ih =>
      intro vistas f h
      simp only [dedupFases] at h
      split_ifs at h with hv
      · obtain ⟨h1, h2⟩ := ih h
        exact ⟨List.mem_cons_of_mem _ h1, h2⟩
      · rcases List.mem_cons.mp h with rfl | h
        · exact ⟨List.mem_cons_self _ _, hv⟩
        · obtain ⟨h1, h2⟩ := ih h
          exact ⟨List.mem_cons_of_mem _ h1, fun hm => h2 (List.mem_cons_of_mem _ hm)⟩

theorem pairwise_dedupFases : ∀ (fs : List Fase) (vistas : List String),
    (dedupFases fs vistas).Pairwise (fun a b => claveFase a ≠ claveFase b) := by
  intro fs
  induction fs with
  | nil => intro vistas; exact List.Pairwise.nil
  | cons f0 fs ih =>
      intro vistas
      simp only [dedupFases]
      split_ifs with hv
      · exact ih vistas
      · refine List.Pairwise.cons ?_ (ih (claveFase f0 :: vistas))
        intro g hg heq
        obtain ⟨-, h2⟩ := mem_dedupFases hg
        apply h2
        rw [← heq]
        exact List.mem_cons_self _ _

theorem find_dedupFases : ∀ (fs : List Fase) (vistas : List String) (f : Fase),
    f ∈ dedupFases fs vistas →
    fs.find? (fun g => claveFase g == claveFase f) = some f := by
  intro fs
  induction fs with
  | nil => intro vistas f h; cases h
  | cons f0 fs ih =>
      intro vistas f h
      simp only [dedupFases] at h
      split_ifs at h with hv
      · have hne : claveFase f0 ≠ claveFase f := by
          intro heq
          exact (mem_dedupFases h).2 (heq ▸ hv)
        have hbeq : (claveFase f0 == claveFase f) = false := by
          simp only [beq_eq_false_iff_ne, ne_eq]
          exact hne
        rw [List.find?_cons, hbeq]
        exact ih vistas f h
      · rcases List.mem_cons.mp h with rfl | h
        · have hbeq : (claveFase f == claveFase f) = true := beq_self_eq_true _
          rw [List.find?_cons, hbeq]
        · have hne : claveFase f0 ≠ claveFase f := by
            intro heq
            apply (mem_dedupFases h).2
            rw [← heq]
            exact List.mem_cons_self _ _
          have hbeq : (claveFase f0 == claveFase f) = false := by
            simp only [beq_eq_false_iff_ne, ne_eq]
            exact hne
          rw [List.find?_cons, hbeq]
          exact ih (claveFase f0 :: vistas) f h

/-- C7: the filtered lunar-phase list holds at most one record per (subtype,
calendar month) key, and the record kept for a key is the first raw detection
with that key. -/
theorem C7_una_fase_por_subtipo_por_mes (fases : List Fase) :
    (filtrarFases fases).Pairwise (fun a b => claveFase a ≠ claveFase b) ∧
    ∀ f ∈ filtrarFases fases,
      fases.find? (fun g => claveFase g == claveFase f) = some f := by
  constructor
  · have hperm := List.mergeSort_perm (dedupFases fases [])
      (fun a b => decide (a.fecha ≤ b.fecha))
    exact (hperm.pairwise_iff (fun h => Ne.symm h)).mpr (pairwise_dedupFases fases [])
  · intro f hf
    exact find_dedupFases fases [] f (List.mem_mergeSort.mp hf)

/-- C7 witness: two raw detections of the same subtype in the same month are
collapsed to the first one. -/
theorem C7_una_fase_por_subtipo_por_mes_testigo :
    ([⟨"Luna Nueva", "2024-01-01 00:00:00"⟩, ⟨"Luna Nueva", "2024-01-30 23:30:00"⟩] :
        List Fase).find?
      (fun g => claveFase g == claveFase ⟨"Luna Nueva", "2024-01-01 00:00:00"⟩)
      = some ⟨"Luna Nueva", "2024-01-01 00:00:00"⟩ :=
  (C7_una_fase_por_subtipo_por_mes
      [⟨"Luna Nueva", "2024-01-01 00:00:00"⟩, ⟨"Luna Nueva", "2024-01-30 23:30:00"⟩]).2
    ⟨"Luna Nueva", "2024-01-01 00:00:00"⟩
    (by
      simp only [filtrarFases, List.mem_mergeSort]
      decide)

end Misticos
